import Mathlib

/-!
Shallow embedding of the rp2040-page-turner runtime core.

The repository has two parallel implementations of the tap/lamp logic: one
factored into `rp2040_util.py` (reading the shared `Heartbeat` time) and a
near-identical copy inlined in `code.py` (taking `current_time` as an
argument).  Within one scheduler iteration both read the same clock value, so
both are embedded here as pure functions over an explicit `current_time`
argument; hardware objects (`AnalogIn`, `DigitalInOut`, `NeoPixel`,
`Keyboard`) are replaced by explicit inputs (`tapped`, `usb_connected`) and
emitted device-effect lists.  Python float time is modelled by exact
rationals.
-/

/-- Seconds.  The source uses Python floats; the timing logic is modelled
over exact rationals. -/
abbrev Secs := ℚ

/-- `TAP_MIN_SECS = .05` from `rp2040_util.py` / `code.py`. -/
def TAP_MIN_SECS : Secs := 5 / 100

/-- `TAP_CAPTURE_SECS = 0.5`. -/
def TAP_CAPTURE_SECS : Secs := 5 / 10

/-- `PULSE_SECS = .02` from `code.py`. -/
def PULSE_SECS : Secs := 2 / 100

/-- `STATUS_LAMP_ON_SECS = 1.0` from `code.py`. -/
def STATUS_LAMP_ON_SECS : Secs := 1

/-- `PGXX_LAMP_ON_SECS = 1.0` from `code.py`. -/
def PGXX_LAMP_ON_SECS : Secs := 1

/-- An RGB triple, the argument of `neopixel` `fill`. -/
abbrev Color := ℕ × ℕ × ℕ

/-- `STATUS_COLOR_SINGLE_TAP = (255, 0, 0)` from `code.py`. -/
def STATUS_COLOR_SINGLE_TAP : Color := (255, 0, 0)

/-- `STATUS_COLOR_DOUBLE_TAP = (0, 255, 0)` from `code.py`. -/
def STATUS_COLOR_DOUBLE_TAP : Color := (0, 255, 0)

/-- `class Tap`: `start` is set at construction, `end` (here `end_`, since
`end` is a Lean keyword) starts as `None` and is set when the tap is
finalized. -/
structure Tap where
  start : Secs
  end_ : Option Secs
deriving DecidableEq, Repr

namespace TapInput

/-- The mutable state of `TapInput`: `self.taps`, which is `None` until the
input is first seen released (the startup guard) and afterwards the pending
list of `Tap`s. -/
abbrev State := Option (List Tap)

/-- `TapInput.__init__` sets `self.taps = None`. -/
def init : State := none

/-- The release step of `check_released` ("Finalize unfinished last tap or
remove short tap as appropriate"): when the last pending tap is unfinished,
set its `end` to `current_time` if it lasted at least `TAP_MIN_SECS`,
otherwise drop it ("short tap ignored"); otherwise leave the list alone. -/
def finalize_last (l : List Tap) (current_time : Secs) : List Tap :=
  match l.getLast? with
  | some tp =>
    if tp.end_ = none then
      if current_time - tp.start ≥ TAP_MIN_SECS then
        l.dropLast ++ [⟨tp.start, some current_time⟩]
      else
        l.dropLast
    else l
  | none => l

/-- `TapInput.check_released` from `code.py` (identical, up to the clock
being passed explicitly, to the `rp2040_util.py` version).  `tapped` is the
thresholded sensor reading `self.device.value < TAP_VALUE_THRESHOLD`, an
input here.  Returns the Python return value paired with the new `self.taps`.
Python list idioms are mapped as: `self.taps[-1]` is `List.getLast?`,
`self.taps.append x` is `· ++ [x]`, `self.taps.pop()` is `List.dropLast`,
and truthiness `not self.taps` is emptiness. -/
def check_released (taps : State) (tapped : Bool) (current_time : Secs) :
    Bool × State :=
  match taps with
  | none =>
    -- Wait for an initial tap to release when starting up.
    if tapped then (false, none) else (false, some [])
  | some l =>
    if tapped then
      -- Add new Tap if handling first one or previous one was finalized.
      if l.isEmpty || l.getLast?.any (fun tp => tp.end_.isSome) then
        (false, some (l ++ [⟨current_time, none⟩]))
      else
        -- Nothing for caller to do while tapped.
        (false, some l)
    else
      match finalize_last l current_time with
      | [] =>
        -- Nothing to do if no taps are saved.
        (false, some [])
      | tp0 :: rest =>
        -- Wait for end of capture window before checking taps.
        if current_time - tp0.start < TAP_CAPTURE_SECS then
          (false, some (tp0 :: rest))
        else (true, some (tp0 :: rest))

/-- `TapInput.check_taps`: returns `min(len(self.taps), 2)` and clears the
list.  The source reads `self.taps` assuming it is an armed list (the caller
only invokes it after `check_released` returned true, which implies the state
is `some _`). -/
def check_taps (taps : List Tap) : ℕ × List Tap :=
  (min taps.length 2, [])

end TapInput

/-- The data of `LampBase.__init__`: configured hold durations and the
mutable state (`is_on`, `on_time`, `off_time`). -/
structure LampState where
  on_secs : Option Secs
  off_secs : Option Secs
  is_on : Bool
  on_time : Option Secs
  off_time : Option Secs
deriving DecidableEq, Repr

/-- `LampBase.__init__(device, on_secs, off_secs, is_on)`: both deadlines
start as `None`. -/
def LampState.init (on_secs off_secs : Option Secs) (is_on : Bool) : LampState :=
  { on_secs := on_secs, off_secs := off_secs, is_on := is_on,
    on_time := none, off_time := none }

/-- A call of the abstract hook `on_turn_on` (activation) or `on_turn_off`
(deactivation) of `LampBase`. -/
inductive LampEff where
  | activate
  | deactivate
deriving DecidableEq, Repr

namespace LampBase

/-- `LampBase.turn_on`: invoke `on_turn_on`, set `is_on = True`, and set
`off_time` to `current_time + on_secs` when `on_secs is not None`, else to
`None`.  Note the source does not touch `on_time` here. -/
def turn_on (s : LampState) (current_time : Secs) : LampState × List LampEff :=
  ({ s with
      is_on := true
      off_time := s.on_secs.map fun d => current_time + d },
   [LampEff.activate])

/-- `LampBase.turn_off`: invoke `on_turn_off`, set `is_on = False`, and set
`on_time` to `current_time + off_secs` when `off_secs is not None`, else to
`None`.  The source does not touch `off_time` here. -/
def turn_off (s : LampState) (current_time : Secs) : LampState × List LampEff :=
  ({ s with
      is_on := false
      on_time := s.off_secs.map fun d => current_time + d },
   [LampEff.deactivate])

/-- `LampBase.update`.  The Python guard `if self.off_time and current_time
>= self.off_time` uses truthiness: it is false both when `off_time` is `None`
and when it equals `0` (falsy float), hence the `t ≠ 0` conjunct; likewise
for `on_time`. -/
def update (s : LampState) (current_time : Secs) : LampState × List LampEff :=
  if s.is_on then
    match s.off_time with
    | some t => if t ≠ 0 ∧ t ≤ current_time then turn_off s current_time else (s, [])
    | none => (s, [])
  else
    match s.on_time with
    | some t => if t ≠ 0 ∧ t ≤ current_time then turn_on s current_time else (s, [])
    | none => (s, [])

end LampBase

/-- A write to an output device: `self.device.value = b` for a binary
`Lamp`, `self.device.fill(color)` / `self.device.fill(0)` for a
`MulticolorLamp` neopixel. -/
inductive DevEff where
  | setValue (value : Bool)
  | fill (color : Color)
  | fillZero
deriving DecidableEq, Repr

namespace Lamp

/-- `Lamp.on_turn_on` / `Lamp.on_turn_off`: assert or clear the digital
output. -/
def interp : LampEff → List DevEff
  | .activate => [DevEff.setValue true]
  | .deactivate => [DevEff.setValue false]

/-- `Lamp.turn_on` (inherited from `LampBase`, with the binary hooks). -/
def turn_on (s : LampState) (current_time : Secs) : LampState × List DevEff :=
  let r := LampBase.turn_on s current_time
  (r.1, r.2.flatMap interp)

/-- `Lamp.turn_off` (inherited, with the binary hooks). -/
def turn_off (s : LampState) (current_time : Secs) : LampState × List DevEff :=
  let r := LampBase.turn_off s current_time
  (r.1, r.2.flatMap interp)

/-- `Lamp.update` (inherited, with the binary hooks). -/
def update (s : LampState) (current_time : Secs) : LampState × List DevEff :=
  let r := LampBase.update s current_time
  (r.1, r.2.flatMap interp)

end Lamp

/-- The data of `MulticolorLamp`: the inherited `LampBase` state plus the
`color` attribute (`None` unless set at construction or via `set_color`).
The neopixel `brightness` is a device construction parameter never read by
the logic, so it is not part of the state. -/
structure MLampState where
  base : LampState
  color : Option Color
deriving DecidableEq, Repr

namespace MulticolorLamp

/-- `MulticolorLamp.on_turn_on`: `if self.color is not None:
self.device.fill(self.color)` — paints nothing when no color is set.
`MulticolorLamp.on_turn_off`: `self.device.fill(0)` unconditionally. -/
def interp (color : Option Color) : LampEff → List DevEff
  | .activate =>
    match color with
    | some c => [DevEff.fill c]
    | none => []
  | .deactivate => [DevEff.fillZero]

/-- `MulticolorLamp.set_color`. -/
def set_color (s : MLampState) (color : Color) : MLampState :=
  { s with color := some color }

/-- `MulticolorLamp.turn_on` (inherited from `LampBase`, with the neopixel
hooks reading the current `color`). -/
def turn_on (s : MLampState) (current_time : Secs) : MLampState × List DevEff :=
  let r := LampBase.turn_on s.base current_time
  ({ s with base := r.1 }, r.2.flatMap (interp s.color))

/-- `MulticolorLamp.turn_off` (inherited, with the neopixel hooks). -/
def turn_off (s : MLampState) (current_time : Secs) : MLampState × List DevEff :=
  let r := LampBase.turn_off s.base current_time
  ({ s with base := r.1 }, r.2.flatMap (interp s.color))

/-- `MulticolorLamp.update` (inherited, with the neopixel hooks). -/
def update (s : MLampState) (current_time : Secs) : MLampState × List DevEff :=
  let r := LampBase.update s.base current_time
  ({ s with base := r.1 }, r.2.flatMap (interp s.color))

end MulticolorLamp

/-- The keycodes sent by `PageTurner.poll` (`Keycode.PAGE_DOWN`,
`Keycode.PAGE_UP`). -/
inductive Keycode where
  | PAGE_DOWN
  | PAGE_UP
deriving DecidableEq, Repr

/-- An observable action of one `PageTurner.poll` call: a device write of one
of the lamps, or a keystroke sent through the HID keyboard. -/
inductive PTEff where
  | pulse (e : DevEff)
  | status (e : DevEff)
  | pgdn (e : DevEff)
  | pgup (e : DevEff)
  | sendKey (code : Keycode)
deriving DecidableEq, Repr

/-- Whether a `PTEff` is a keystroke transmission. -/
def PTEff.isSend : PTEff → Bool
  | .sendKey _ => true
  | _ => false

/-- The mutable state of `PageTurner` (from `code.py`).  `keyboard_output`
models `self.keyboard_output is not None` (a connected `Keyboard` object vs
`None`); `usb_drive_lamp` is only touched in `loop`, before polling
starts. -/
structure PageTurnerState where
  pulse_lamp : LampState
  status_lamp : MLampState
  pgdn_lamp : LampState
  pgup_lamp : LampState
  usb_drive_lamp : LampState
  keyboard_output : Bool
  tap_input : TapInput.State
deriving DecidableEq, Repr

/-- `PageTurner.poll` from `code.py`.  External reads become inputs:
`usb_connected` is `supervisor.runtime.usb_connected`, `tapped` the
thresholded sensor value inside `check_released`, `current_time` is
`time.monotonic()`.  The returned list collects, in program order, every
device write and keystroke of the call.  `check_taps` reads `self.taps`
which is an armed list whenever `check_released` returned true; the
model's `Option.getD []` is only exercised on that armed case. -/
def PageTurner.poll (s : PageTurnerState) (usb_connected tapped : Bool)
    (current_time : Secs) : PageTurnerState × List PTEff :=
  -- Host may be disconnected at startup. Connect USB HID keyboard when host connects.
  let connect := s.keyboard_output = false ∧ usb_connected = true
  let c : PageTurnerState × List PTEff :=
    if connect then
      let d := Lamp.turn_on s.pgdn_lamp current_time
      let u := Lamp.turn_on s.pgup_lamp current_time
      ({ s with keyboard_output := true, pgdn_lamp := d.1, pgup_lamp := u.1 },
       d.2.map PTEff.pgdn ++ u.2.map PTEff.pgup)
    else (s, [])
  -- Update lamps.
  let d2 := Lamp.update c.1.pgdn_lamp current_time
  let u2 := Lamp.update c.1.pgup_lamp current_time
  let p2 := Lamp.update c.1.pulse_lamp current_time
  let st2 := MulticolorLamp.update c.1.status_lamp current_time
  let s2 : PageTurnerState :=
    { c.1 with pgdn_lamp := d2.1, pgup_lamp := u2.1, pulse_lamp := p2.1,
               status_lamp := st2.1 }
  let e2 : List PTEff :=
    c.2 ++ d2.2.map PTEff.pgdn ++ u2.2.map PTEff.pgup ++ p2.2.map PTEff.pulse
        ++ st2.2.map PTEff.status
  -- Handle tap input. Look for finalized single/double taps when released.
  let rel := TapInput.check_released s2.tap_input tapped current_time
  let s3 : PageTurnerState := { s2 with tap_input := rel.2 }
  if rel.1 then
    let ct := TapInput.check_taps (rel.2.getD [])
    let s4 : PageTurnerState := { s3 with tap_input := some ct.2 }
    if ct.1 = 1 then
      let key : List PTEff :=
        if s4.keyboard_output then [PTEff.sendKey Keycode.PAGE_DOWN] else []
      let d := Lamp.turn_on s4.pgdn_lamp current_time
      let st0 := MulticolorLamp.set_color s4.status_lamp STATUS_COLOR_SINGLE_TAP
      let st := MulticolorLamp.turn_on st0 current_time
      ({ s4 with pgdn_lamp := d.1, status_lamp := st.1 },
       e2 ++ key ++ d.2.map PTEff.pgdn ++ st.2.map PTEff.status)
    else if ct.1 = 2 then
      let key : List PTEff :=
        if s4.keyboard_output then [PTEff.sendKey Keycode.PAGE_UP] else []
      let u := Lamp.turn_on s4.pgup_lamp current_time
      let st0 := MulticolorLamp.set_color s4.status_lamp STATUS_COLOR_DOUBLE_TAP
      let st := MulticolorLamp.turn_on st0 current_time
      ({ s4 with pgup_lamp := u.1, status_lamp := st.1 },
       e2 ++ key ++ u.2.map PTEff.pgup ++ st.2.map PTEff.status)
    else (s4, e2)
  else (s3, e2)

/-- One pass of `for lamp in controller.lamps: lamp.update()` in
`gadget_main`: each registered output is advanced with the same heartbeat
time; an update touches only that output's own state. -/
def advance_all (lamps : List LampState) (now : Secs) : List LampState :=
  lamps.map fun s => (LampBase.update s now).1

/-- The registry advanced over a whole sequence of heartbeat ticks. -/
def run_registry (lamps : List LampState) (nows : List Secs) : List LampState :=
  nows.foldl advance_all lamps

/-- A single output advanced alone over the same tick sequence. -/
def run_one (nows : List Secs) (s : LampState) : LampState :=
  nows.foldl (fun a n => (LampBase.update a n).1) s

/-- The `TapInput` states reachable through the public entry points: the
initial `None`, any `check_released` observation, and `check_taps` on an
armed state. -/
inductive TapReach : TapInput.State → Prop where
  | init : TapReach TapInput.init
  | released (s : TapInput.State) (tapped : Bool) (now : Secs) :
      TapReach s → TapReach (TapInput.check_released s tapped now).2
  | taps (l : List Tap) :
      TapReach (some l) → TapReach (some (TapInput.check_taps l).2)

/-- All pending taps except possibly the last are finalized: the statement
that at most one `Tap` has `end_ = none` and, when one does, it is the most
recent one. -/
def tapsOk (l : List Tap) : Prop :=
  ∀ tp ∈ l.dropLast, tp.end_.isSome = true

/-- The `LampBase` states reachable from a freshly constructed lamp through
the public entry points `turn_on`, `turn_off` and `update`. -/
inductive LampReach : LampState → Prop where
  | init (on_secs off_secs : Option Secs) (is_on : Bool) :
      LampReach (LampState.init on_secs off_secs is_on)
  | on_ (s : LampState) (now : Secs) :
      LampReach s → LampReach (LampBase.turn_on s now).1
  | off (s : LampState) (now : Secs) :
      LampReach s → LampReach (LampBase.turn_off s now).1
  | upd (s : LampState) (now : Secs) :
      LampReach s → LampReach (LampBase.update s now).1

/-- `check_released` folded over a whole observation sequence of
`(tapped, current_time)` pairs, one per scheduler iteration. -/
def run_released (s : TapInput.State) (obs : List (Bool × Secs)) :
    List Bool × TapInput.State :=
  match obs with
  | [] => ([], s)
  | (tapped, now) :: rest =>
    let r := TapInput.check_released s tapped now
    let rr := run_released r.2 rest
    (r.1 :: rr.1, rr.2)

/-- C5: `check_taps` returns `min(len(pending_taps), 2)` and leaves the
pending sequence empty; for three or more pending taps the classified count
is exactly 2, never more. -/
theorem check_taps_saturates (l : List Tap) :
    TapInput.check_taps l = (min l.length 2, []) ∧
    (3 ≤ l.length → (TapInput.check_taps l).1 = 2) := by
  refine ⟨rfl, fun h => ?_⟩
  simp only [TapInput.check_taps]
  omega

/-- Witness for C5 at a concrete three-tap sequence. -/
theorem check_taps_saturates_witness :
    (TapInput.check_taps [⟨0, some 1⟩, ⟨2, some 3⟩, ⟨4, some 5⟩]).1 = 2 :=
  (check_taps_saturates [⟨0, some 1⟩, ⟨2, some 3⟩, ⟨4, some 5⟩]).2 (by simp)

/-- C4: while an initial contact is held, `check_released` keeps returning
`false` and keeps the classifier unarmed (`taps` stays `None`); the first
`contact = false` observation arms it with the empty pending sequence (still
returning `false`), after which a `contact = true` observation starts
recording a `Tap`. -/
theorem startup_guard (obs : List (Bool × Secs))
    (h : ∀ p ∈ obs, p.1 = true) :
    run_released TapInput.init obs = (obs.map fun _ => false, TapInput.init) ∧
    (∀ now : Secs,
      TapInput.check_released TapInput.init false now = (false, some [])) ∧
    (∀ now : Secs,
      TapInput.check_released (some []) true now =
        (false, some [⟨now, none⟩])) := by
  refine ⟨?_, fun _ => rfl, fun _ => rfl⟩
  induction obs with
  | nil => rfl
  | cons p rest ih =>
    obtain ⟨tapped, now⟩ := p
    have hp : tapped = true := h (tapped, now) (List.mem_cons_self _ _)
    subst hp
    have ih' := ih fun q hq => h q (List.mem_cons_of_mem _ hq)
    simp only [TapInput.init] at ih' ⊢
    simp only [run_released, List.map_cons]
    have hstep : TapInput.check_released none true now = (false, none) := rfl
    rw [hstep]
    simp [ih']

/-- Witness for C4: two held iterations then nothing. -/
theorem startup_guard_witness :
    run_released TapInput.init [(true, 0), (true, 1)] =
      ([false, false], TapInput.init) :=
  (startup_guard [(true, 0), (true, 1)] (by simp)).1

/-- C1 (amended): for an ON lamp with `off_time = some t`, `update` performs
`turn_off` (state change plus deactivation effect) exactly when `t ≠ 0` and
`now ≥ t`; when the deadline has not elapsed — and also when `t = 0`, which
Python's truthiness test `if self.off_time and ...` treats like no deadline —
`update` returns the state unchanged with no effect. -/
theorem update_on_with_deadline (s : LampState) (now t : Secs)
    (hon : s.is_on = true) (ht : s.off_time = some t) :
    (t ≠ 0 ∧ t ≤ now →
      LampBase.update s now = LampBase.turn_off s now) ∧
    (t = 0 ∨ now < t →
      LampBase.update s now = (s, [])) := by
  constructor
  · intro hfire
    simp [LampBase.update, hon, ht, hfire.1, hfire.2]
  · intro hno
    rcases hno with h0 | hlt
    · simp [LampBase.update, hon, ht, h0]
    · simp [LampBase.update, hon, ht, not_le.mpr hlt]

/-- Witness for C1's amended theorem: both the firing case and the not-yet
case at concrete inputs. -/
theorem update_on_with_deadline_witness :
    LampBase.update { on_secs := some 1, off_secs := none, is_on := true,
                      on_time := none, off_time := some 2 } 5 =
      LampBase.turn_off { on_secs := some 1, off_secs := none, is_on := true,
                          on_time := none, off_time := some 2 } 5 :=
  (update_on_with_deadline
    { on_secs := some 1, off_secs := none, is_on := true,
      on_time := none, off_time := some 2 } 5 2 rfl rfl).1 (by norm_num)

/-- C1 counterexample: an ON lamp with `off_time = some 0` and `now = 7 ≥ 0`
stays ON under `update`, because `if self.off_time and ...` is false for a
deadline equal to `0`; the claim as stated requires the OFF transition here. -/
theorem update_zero_deadline_cex :
    (0 : Secs) ≤ 7 ∧
    (LampBase.update { on_secs := some 5, off_secs := none, is_on := true,
                       on_time := none, off_time := some 0 } 7).1.is_on
      = true := by
  constructor
  · norm_num
  · norm_num [LampBase.update]

/-- C6: `turn_on` on an already-ON lamp re-invokes the activation hook, keeps
`is_on`, and re-arms `off_time` to exactly `now + on_secs` when `on_secs` is
set — at least as late as the previous deadline when the previous trigger
time was no later than `now`; symmetrically, `turn_off` while already OFF
re-invokes the deactivation hook and re-arms `on_time` to `now + off_secs`
when `off_secs` is set. -/
theorem turn_on_retrigger (s : LampState) (now : Secs)
    (hon : s.is_on = true) :
    ((LampBase.turn_on s now).1.is_on = true ∧
     (LampBase.turn_on s now).2 = [LampEff.activate]) ∧
    (∀ d : Secs, s.on_secs = some d →
      (LampBase.turn_on s now).1.off_time = some (now + d) ∧
      ∀ t0 : Secs, s.off_time = some (t0 + d) → t0 ≤ now →
        t0 + d ≤ now + d) ∧
    (∀ (s' : LampState), s'.is_on = false →
      (LampBase.turn_off s' now).1.is_on = false ∧
      (LampBase.turn_off s' now).2 = [LampEff.deactivate] ∧
      ∀ d : Secs, s'.off_secs = some d →
        (LampBase.turn_off s' now).1.on_time = some (now + d)) := by
  refine ⟨⟨rfl, rfl⟩, fun d hd => ⟨?_, fun t0 _ hle => by linarith⟩,
    fun s' _ => ⟨rfl, rfl, fun d hd => ?_⟩⟩
  · simp [LampBase.turn_on, hd]
  · simp [LampBase.turn_off, hd]

/-- Witness for C6 at a concrete already-ON lamp. -/
theorem turn_on_retrigger_witness :
    (LampBase.turn_on { on_secs := some 1, off_secs := none, is_on := true,
                        on_time := none, off_time := some 2 } 3).1.is_on
      = true ∧
    (LampBase.turn_on { on_secs := some 1, off_secs := none, is_on := true,
                        on_time := none, off_time := some 2 } 3).2
      = [LampEff.activate] :=
  (turn_on_retrigger
    { on_secs := some 1, off_secs := none, is_on := true,
      on_time := none, off_time := some 2 } 3 rfl).1

/-- C10: a `MulticolorLamp` whose `color` is unset still switches `is_on` on
and arms the off deadline under `turn_on`, but writes nothing to the pixel
device (`on_turn_on` is guarded by `if self.color is not None`); `turn_off`
always emits `fill(0)`, blanking the pixel regardless of color — so such an
ON lamp produced no pixel write distinguishing it from OFF. -/
theorem mlamp_unset_color (s : MLampState) (now : Secs)
    (h : s.color = none) :
    MulticolorLamp.turn_on s now =
      ({ base := { s.base with
          is_on := true
          off_time := s.base.on_secs.map fun d => now + d },
         color := none }, []) ∧
    (∀ (s' : MLampState) (now' : Secs),
      (MulticolorLamp.turn_off s' now').2 = [DevEff.fillZero]) := by
  constructor
  · simp [MulticolorLamp.turn_on, LampBase.turn_on, MulticolorLamp.interp, h]
  · intro s' now'
    simp [MulticolorLamp.turn_off, LampBase.turn_off, MulticolorLamp.interp]

/-- Witness for C10 at a concrete colorless lamp. -/
theorem mlamp_unset_color_witness :
    MulticolorLamp.turn_on ⟨LampState.init (some 1) none false, none⟩ 2 =
      ({ base := { LampState.init (some 1) none false with
          is_on := true
          off_time := some 3 },
         color := none }, []) := by
  have h := (mlamp_unset_color ⟨LampState.init (some 1) none false, none⟩ 2
    rfl).1
  rw [h]
  norm_num [LampState.init]

/-- C2 counterexample: on a lamp constructed with `off_secs = 5` and no
`on_secs`, calling `turn_off` at time 0 and then `turn_on` at time 1 reaches
a state that is ON while `on_time` still holds the stale deadline 5 —
`turn_on` arms/clears only `off_time` and never clears `on_time`. -/
theorem lamp_deadline_invariant_cex :
    LampReach { on_secs := none, off_secs := some 5, is_on := true,
                on_time := some 5, off_time := none } ∧
    ({ on_secs := none, off_secs := some 5, is_on := true,
       on_time := some 5, off_time := none } : LampState).is_on = true ∧
    ({ on_secs := none, off_secs := some 5, is_on := true,
       on_time := some 5, off_time := none } : LampState).on_time ≠ none := by
  refine ⟨?_, rfl, by simp⟩
  have h : (LampBase.turn_on
      (LampBase.turn_off (LampState.init none (some 5) false) 0).1 1).1 =
      { on_secs := none, off_secs := some 5, is_on := true,
        on_time := some 5, off_time := none } := by
    norm_num [LampBase.turn_on, LampBase.turn_off, LampState.init]
  exact h ▸
    LampReach.on_ _ 1 (LampReach.off _ 0 (LampReach.init none (some 5) false))

/-- C2 (amended): the field-level invariant fails (the counterexample keeps
a stale `on_time` while ON), but at most one deadline is ever live: while ON,
`update` decides and acts using `off_time` alone — changing `on_time`
arbitrarily changes neither the resulting `is_on` and `off_time` nor the
emitted effects — and symmetrically while OFF it ignores `off_time`. -/
theorem update_single_live_deadline (s : LampState) (now : Secs) :
    (s.is_on = true → ∀ x : Option Secs,
      (LampBase.update { s with on_time := x } now).1.is_on
          = (LampBase.update s now).1.is_on ∧
      (LampBase.update { s with on_time := x } now).1.off_time
          = (LampBase.update s now).1.off_time ∧
      (LampBase.update { s with on_time := x } now).2
          = (LampBase.update s now).2) ∧
    (s.is_on = false → ∀ x : Option Secs,
      (LampBase.update { s with off_time := x } now).1.is_on
          = (LampBase.update s now).1.is_on ∧
      (LampBase.update { s with off_time := x } now).1.on_time
          = (LampBase.update s now).1.on_time ∧
      (LampBase.update { s with off_time := x } now).2
          = (LampBase.update s now).2) := by
  constructor
  · intro hon x
    simp only [LampBase.update, hon, if_true]
    cases hoff : s.off_time with
    | none => simp [hoff, hon]
    | some t =>
      by_cases hc : t ≠ 0 ∧ t ≤ now
      · simp [hc, hoff, hon, LampBase.turn_off]
      · simp [hc, hoff, hon]
  · intro hoff x
    simp only [LampBase.update, hoff, Bool.false_eq_true, if_false]
    cases hon : s.on_time with
    | none => simp [hon, hoff]
    | some t =>
      by_cases hc : t ≠ 0 ∧ t ≤ now
      · simp [hc, hon, hoff, LampBase.turn_on]
      · simp [hc, hon, hoff]

/-- Witness for C2's amended theorem: the stale `on_time = 5` of the
counterexample state does not change what `update` does at time 2. -/
theorem update_single_live_deadline_witness :
    (LampBase.update { on_secs := none, off_secs := some 5, is_on := true,
                       on_time := none, off_time := none } 2).1.is_on
      = (LampBase.update { on_secs := none, off_secs := some 5, is_on := true,
                           on_time := some 5, off_time := none } 2).1.is_on :=
  ((update_single_live_deadline
    { on_secs := none, off_secs := some 5, is_on := true,
      on_time := some 5, off_time := none } 2).1 rfl none).1

/-- On a `contact = false` observation of an armed classifier, the new
pending sequence is always `finalize_last` of the old one, whatever flag is
returned. -/
theorem check_released_false_snd (l : List Tap) (now : Secs) :
    (TapInput.check_released (some l) false now).2 =
      some (TapInput.finalize_last l now) := by
  simp only [TapInput.check_released, Bool.false_eq_true, if_false]
  rcases hfl : TapInput.finalize_last l now with _ | ⟨a, rest⟩ <;>
    simp only [hfl]
  split <;> rfl

/-- Appending a fresh unfinished tap at `t` and releasing before
`TAP_MIN_SECS` has elapsed restores the previous pending sequence. -/
theorem finalize_last_short (l : List Tap) (t t' : Secs)
    (hshort : t' - t < TAP_MIN_SECS) :
    TapInput.finalize_last (l ++ [⟨t, none⟩]) t' = l := by
  simp only [TapInput.finalize_last, List.getLast?_concat, not_le.mpr hshort,
    List.dropLast_concat]
  simp

/-- C3: a contact pulse shorter than `TAP_MIN_SECS` leaves no trace — the
tap started at `t` (while the pending sequence is empty or its last tap is
finalized) is removed again on the release at `t'`, restoring the previous
pending sequence, and when the pulse was the only pending activity the
classifier reports nothing; in general a release finalizes the unfinished
last tap with `end = now` exactly when `now - start ≥ TAP_MIN_SECS`, and
discards it otherwise. -/
theorem debounce_short_tap (l : List Tap) (t t' : Secs)
    (hl : l = [] ∨ ∃ tp, l.getLast? = some tp ∧ tp.end_.isSome = true)
    (hshort : t' - t < TAP_MIN_SECS) :
    TapInput.check_released (some l) true t
      = (false, some (l ++ [⟨t, none⟩])) ∧
    (TapInput.check_released (some (l ++ [⟨t, none⟩])) false t').2 = some l ∧
    (l = [] →
      TapInput.check_released (some (l ++ [⟨t, none⟩])) false t'
        = (false, some [])) ∧
    (∀ (l₂ : List Tap) (t0 now : Secs), l₂.getLast? = some ⟨t0, none⟩ →
      (TAP_MIN_SECS ≤ now - t0 →
        (TapInput.check_released (some l₂) false now).2
          = some (l₂.dropLast ++ [⟨t0, some now⟩])) ∧
      (now - t0 < TAP_MIN_SECS →
        (TapInput.check_released (some l₂) false now).2
          = some l₂.dropLast)) := by
  refine ⟨?_, ?_, ?_, ?_⟩
  · rcases hl with h | ⟨tp, htp, hsome⟩
    · subst h; rfl
    · simp [TapInput.check_released, htp, hsome]
  · rw [check_released_false_snd, finalize_last_short l t t' hshort]
  · intro h
    subst h
    have h1 : TapInput.finalize_last ([] ++ [⟨t, none⟩]) t' = [] :=
      finalize_last_short [] t t' hshort
    simp only [TapInput.check_released, Bool.false_eq_true, if_false, h1]
  · intro l₂ t0 now hlast
    constructor
    · intro hlong
      rw [check_released_false_snd]
      simp [TapInput.finalize_last, hlast, hlong]
    · intro hshort2
      rw [check_released_false_snd]
      simp [TapInput.finalize_last, hlast, not_le.mpr hshort2]

/-- Witness for C3: a lone 0.03 s pulse (contact at 0, release at 3/100)
is appended and then discarded, and nothing is reported. -/
theorem debounce_short_tap_witness :
    TapInput.check_released (some []) true 0
      = (false, some [⟨0, none⟩]) ∧
    TapInput.check_released (some [⟨0, none⟩]) false (3 / 100)
      = (false, some []) := by
  have h := debounce_short_tap [] 0 (3 / 100) (Or.inl rfl)
    (by norm_num [TAP_MIN_SECS])
  exact ⟨h.1, by simpa using h.2.2.1 rfl⟩

/-- `finalize_last` preserves well-formedness of the pending sequence. -/
theorem tapsOk_finalize_last (l : List Tap) (now : Secs) (h : tapsOk l) :
    tapsOk (TapInput.finalize_last l now) := by
  unfold TapInput.finalize_last
  cases hlast : l.getLast? with
  | none => exact h
  | some tp =>
    by_cases hend : tp.end_ = none
    · by_cases hth : now - tp.start ≥ TAP_MIN_SECS
      · simp only [hend, if_true, hth]
        intro q hq
        rw [List.dropLast_concat] at hq
        exact h q hq
      · simp only [hend, if_true, if_neg hth]
        intro q hq
        exact h q (List.dropLast_subset _ hq)
    · simp only [if_neg hend]
      exact h

/-- When the pending sequence is well formed and its last tap is finalized,
every tap in it is finalized. -/
theorem tapsOk_all (l : List Tap) (h : tapsOk l)
    (hlast : (l.getLast?.any fun tp => tp.end_.isSome) = true) :
    ∀ q ∈ l, q.end_.isSome = true := by
  intro q hq
  rcases List.eq_nil_or_concat l with rfl | ⟨l₀, a, rfl⟩
  · simp at hq
  · rw [List.concat_eq_append] at h hlast hq
    rw [List.getLast?_concat] at hlast
    simp only [Option.any_some] at hlast
    rcases List.mem_append.mp hq with hq0 | hqa
    · have := h q
      rw [List.dropLast_concat] at this
      exact this hq0
    · simp only [List.mem_singleton] at hqa
      subst hqa
      exact hlast

/-- `check_released` preserves well-formedness of an armed pending
sequence. -/
theorem tapsOk_check_released (l : List Tap) (tapped : Bool) (now : Secs)
    (h : tapsOk l) (l' : List Tap)
    (h' : (TapInput.check_released (some l) tapped now).2 = some l') :
    tapsOk l' := by
  cases tapped
  · rw [check_released_false_snd] at h'
    injection h' with h'
    subst h'
    exact tapsOk_finalize_last l now h
  · simp only [TapInput.check_released, if_true] at h'
    by_cases hg : (l.isEmpty || l.getLast?.any fun tp => tp.end_.isSome) = true
    · rw [if_pos hg] at h'
      injection h' with h'
      subst h'
      intro q hq
      rw [List.dropLast_concat] at hq
      rcases Bool.or_eq_true_iff.mp hg with hemp | hany
      · rw [List.isEmpty_iff] at hemp
        subst hemp
        simp at hq
      · exact tapsOk_all l h hany q hq
    · rw [if_neg hg] at h'
      injection h' with h'
      subst h'
      exact h

/-- C7: in every reachable classifier state, at most one pending `Tap` has
`end = pending`, and when one does it is the last (most recent) one: all
taps before the last are finalized. -/
theorem pending_taps_wellformed (s : TapInput.State) (h : TapReach s)
    (l : List Tap) (hs : s = some l) : tapsOk l := by
  induction h generalizing l with
  | init => exact absurd hs (by simp [TapInput.init])
  | released s' tapped now hr ih =>
    cases s' with
    | none =>
      cases tapped <;>
        simp only [TapInput.check_released, Bool.false_eq_true, if_false,
          if_true, Option.some.injEq] at hs
      · subst hs
        intro q hq
        simp at hq
      · exact absurd hs (by simp)
    | some l₀ => exact tapsOk_check_released l₀ tapped now (ih l₀ rfl) l hs
  | taps l₂ hr ih =>
    simp only [TapInput.check_taps, Option.some.injEq] at hs
    subst hs
    intro q hq
    simp at hq

/-- Witness for C7 at a concrete reachable state: arm at time 0, tap at
time 0, release at time 1 — the single finalized tap `⟨0, some 1⟩`. -/
theorem pending_taps_wellformed_witness : tapsOk [⟨0, some 1⟩] :=
  pending_taps_wellformed _
    (TapReach.released _ false 1
      (TapReach.released _ true 0
        (TapReach.released TapInput.init false 0 TapReach.init)))
    [⟨0, some 1⟩]
    (by norm_num [TapInput.check_released, TapInput.init,
      TapInput.finalize_last, TAP_MIN_SECS, TAP_CAPTURE_SECS])

/-- Advancing the registry factors through advancing each output alone. -/
theorem run_registry_eq_map (lamps : List LampState) (nows : List Secs) :
    run_registry lamps nows = lamps.map (run_one nows) := by
  induction nows generalizing lamps with
  | nil =>
    simp only [run_registry, List.foldl_nil]
    have h : run_one ([] : List Secs) = fun s => s := rfl
    rw [h, List.map_id']
  | cons n rest ih =>
    show run_registry (advance_all lamps n) rest = _
    rw [ih]
    simp only [advance_all, List.map_map]
    rfl

/-- C9: each output's final state after a sequence of heartbeat ticks
depends only on its own initial state and the tick sequence — the batch
update is an elementwise map, every position is advanced independently, and
advancing any permutation of the registry yields the correspondingly
permuted result. -/
theorem registry_order_independent (lamps : List LampState)
    (nows : List Secs) :
    run_registry lamps nows = lamps.map (run_one nows) ∧
    (∀ i : ℕ, (run_registry lamps nows)[i]? = lamps[i]?.map (run_one nows)) ∧
    (∀ lamps₂ : List LampState, lamps.Perm lamps₂ →
      (run_registry lamps nows).Perm (run_registry lamps₂ nows)) := by
  refine ⟨run_registry_eq_map lamps nows, fun i => ?_, fun l₂ hp => ?_⟩
  · rw [run_registry_eq_map]
    simp [List.getElem?_map]
  · rw [run_registry_eq_map, run_registry_eq_map]
    exact hp.map _

/-- Witness for C9: two lamps advanced in both orders over two ticks give
permuted (here: swapped) results. -/
theorem registry_order_independent_witness :
    (run_registry [LampState.init (some 1) none true,
                   LampState.init none (some 1) false] [1, 2]).Perm
      (run_registry [LampState.init none (some 1) false,
                     LampState.init (some 1) none true] [1, 2]) :=
  (registry_order_independent
    [LampState.init (some 1) none true, LampState.init none (some 1) false]
    [1, 2]).2.2
    [LampState.init none (some 1) false, LampState.init (some 1) none true]
    (List.Perm.swap _ _ _)

/-- Mapping a lamp-effect tag over device writes never produces a keystroke,
so the keystroke filter keeps every such effect: `pgdn` case. -/
theorem filter_isSend_map_pgdn (l : List DevEff) :
    (l.map PTEff.pgdn).filter (fun e => !e.isSend) = l.map PTEff.pgdn := by
  induction l with
  | nil => rfl
  | cons a t ih => simp [PTEff.isSend, ih]

/-- As `filter_isSend_map_pgdn`, `pgup` case. -/
theorem filter_isSend_map_pgup (l : List DevEff) :
    (l.map PTEff.pgup).filter (fun e => !e.isSend) = l.map PTEff.pgup := by
  induction l with
  | nil => rfl
  | cons a t ih => simp [PTEff.isSend, ih]

/-- As `filter_isSend_map_pgdn`, `pulse` case. -/
theorem filter_isSend_map_pulse (l : List DevEff) :
    (l.map PTEff.pulse).filter (fun e => !e.isSend) = l.map PTEff.pulse := by
  induction l with
  | nil => rfl
  | cons a t ih => simp [PTEff.isSend, ih]

/-- As `filter_isSend_map_pgdn`, `status` case. -/
theorem filter_isSend_map_status (l : List DevEff) :
    (l.map PTEff.status).filter (fun e => !e.isSend) = l.map PTEff.status := by
  induction l with
  | nil => rfl
  | cons a t ih => simp [PTEff.isSend, ih]

/-- The keystroke filter removes a lone keystroke effect. -/
theorem filter_isSend_single (k : Keycode) :
    ([PTEff.sendKey k] : List PTEff).filter (fun e => !e.isSend) = [] := by
  simp [PTEff.isSend]

/-- The keystroke filter drops a leading keystroke effect. -/
theorem filter_isSend_cons_send (k : Keycode) (l : List PTEff) :
    (PTEff.sendKey k :: l).filter (fun e => !e.isSend) =
      l.filter (fun e => !e.isSend) := by
  simp [PTEff.isSend]

/-- A keystroke effect never survives the keystroke filter. -/
theorem not_send_mem_filter (l : List PTEff) (k : Keycode) :
    PTEff.sendKey k ∉ l.filter (fun e => !e.isSend) := by
  intro hmem
  have h := (List.mem_filter.mp hmem).2
  simp [PTEff.isSend] at h

/-- C8: when no keystroke sink is connected (`keyboard_output` is `None`)
and the host stays disconnected, `poll` raises nothing and sends nothing —
no `sendKey` effect is emitted — while its resulting state agrees with the
same poll run with a connected sink on every component except the sink flag,
and its effect stream is exactly the connected run's stream with the
keystroke filtered out: all lamp feedback survives unchanged. -/
theorem keystroke_dropped_feedback_kept (s : PageTurnerState)
    (tapped : Bool) (now : Secs) (usb : Bool)
    (hkb : s.keyboard_output = false) :
    (PageTurner.poll s false tapped now).1
      = { (PageTurner.poll { s with keyboard_output := true }
            usb tapped now).1 with keyboard_output := false } ∧
    (PageTurner.poll s false tapped now).2
      = ((PageTurner.poll { s with keyboard_output := true }
            usb tapped now).2.filter fun e => !e.isSend) ∧
    ∀ k : Keycode, PTEff.sendKey k ∉ (PageTurner.poll s false tapped now).2 := by
  obtain ⟨pl, st, pd, pu, ud, kb, ti⟩ := s
  replace hkb : kb = false := hkb
  subst hkb
  simp only [PageTurner.poll]
  norm_num
  by_cases hrel : (TapInput.check_released ti tapped now).1 = true
  · by_cases h1 :
      (TapInput.check_taps ((TapInput.check_released ti tapped now).2.getD [])).1 = 1
    · simp [hrel, h1, List.filter_append, filter_isSend_map_pgdn,
        filter_isSend_map_pgup, filter_isSend_map_pulse,
        filter_isSend_map_status, filter_isSend_single, filter_isSend_cons_send]
    · by_cases h2 :
        (TapInput.check_taps ((TapInput.check_released ti tapped now).2.getD [])).1 = 2
      · simp [hrel, h1, h2, List.filter_append, filter_isSend_map_pgdn,
          filter_isSend_map_pgup, filter_isSend_map_pulse,
          filter_isSend_map_status, filter_isSend_single, filter_isSend_cons_send]
      · simp [hrel, h1, h2, List.filter_append, filter_isSend_map_pgdn,
          filter_isSend_map_pgup, filter_isSend_map_pulse,
          filter_isSend_map_status, filter_isSend_single, filter_isSend_cons_send]
  · simp [hrel, List.filter_append, filter_isSend_map_pgdn,
      filter_isSend_map_pgup, filter_isSend_map_pulse,
      filter_isSend_map_status, filter_isSend_single, filter_isSend_cons_send]

/-- Witness for C8: a freshly constructed `PageTurner` state (all lamps
off, classifier unarmed, no sink), polled once with the host disconnected,
agrees with the connected run on everything but the sink flag. -/
theorem keystroke_dropped_feedback_kept_witness :
    (PageTurner.poll
      { pulse_lamp := LampState.init (some PULSE_SECS) (some PULSE_SECS) false
        status_lamp := ⟨LampState.init (some STATUS_LAMP_ON_SECS) none false, none⟩
        pgdn_lamp := LampState.init (some PGXX_LAMP_ON_SECS) none false
        pgup_lamp := LampState.init (some PGXX_LAMP_ON_SECS) none false
        usb_drive_lamp := LampState.init none none false
        keyboard_output := false
        tap_input := TapInput.init } false false 0).1
      = { (PageTurner.poll
            { pulse_lamp := LampState.init (some PULSE_SECS) (some PULSE_SECS) false
              status_lamp := ⟨LampState.init (some STATUS_LAMP_ON_SECS) none false, none⟩
              pgdn_lamp := LampState.init (some PGXX_LAMP_ON_SECS) none false
              pgup_lamp := LampState.init (some PGXX_LAMP_ON_SECS) none false
              usb_drive_lamp := LampState.init none none false
              keyboard_output := true
              tap_input := TapInput.init } false false 0).1
          with keyboard_output := false } :=
  (keystroke_dropped_feedback_kept
    { pulse_lamp := LampState.init (some PULSE_SECS) (some PULSE_SECS) false
      status_lamp := ⟨LampState.init (some STATUS_LAMP_ON_SECS) none false, none⟩
      pgdn_lamp := LampState.init (some PGXX_LAMP_ON_SECS) none false
      pgup_lamp := LampState.init (some PGXX_LAMP_ON_SECS) none false
      usb_drive_lamp := LampState.init none none false
      keyboard_output := false
      tap_input := TapInput.init } false 0 false rfl).1
